import Mathlib

/-!
# lightSource (src/RayCast/lightSource.cpp)

A shallow embedding of the `lightSource` class of the ray-casting forward projector:
the class-wide (static) members, the two constructors, the destructor, `InitParam`
and `ForwardProjectionBilinear`.  Host code is modelled by explicit state passing over
a `World` that holds the static members, the device (the sequence of device calls and
the live device buffers) and the bytes written to standard output.
-/

namespace RayCast

/-! ## Machine types -/

/-- Two's complement wrap-around of an integer into the range of a 32-bit `int`. -/
def wrapInt (x : Int) : Int := (x + 2147483648) % 4294967296 - 2147483648

/-- The C++ type `int`: a 32-bit signed integer. -/
abbrev CInt := {x : Int // -2147483648 ≤ x ∧ x < 2147483648}

/-- Conversion of a mathematical integer to `int` (wrapping). -/
def CInt.ofInt (x : Int) : CInt :=
  ⟨wrapInt x, by unfold wrapInt; omega⟩

/-- The `int` addition `a + b`. -/
def CInt.add (a b : CInt) : CInt := CInt.ofInt (a.val + b.val)

/-- The C++ type `float`; the host code only passes these values on, so a value is
represented by its bit pattern. -/
structure CFloat where
  bits : Nat
  deriving DecidableEq, Repr

/-- A device pointer (`float*`); `0` is `nullptr`. -/
abbrev DevPtr := Nat

/-- The null pointer. -/
def nullptr : DevPtr := 0

/-- A CUDA stream handle. -/
abbrev cudaStream_t := Nat

/-- Modelled from the spec: the configuration struct `FPConfig` (config.h is not among
the sources).  The fields are the ones the spec lists and `lightSource.cpp` reads:
detector element count and size, view count, start angle, total scan angle, z-element
count, source-to-isocenter distance and source-to-detector distance. -/
structure FPConfig where
  detEltCount : CInt
  detEltSize : CFloat
  views : CInt
  startAngle : CFloat
  totalScanAngle : CFloat
  detZEltCount : CInt
  sid : CFloat
  sdd : CFloat
  deriving DecidableEq

/-- A zero-initialised configuration (static storage duration). -/
def FPConfig.zero : FPConfig :=
  { detEltCount := CInt.ofInt 0, detEltSize := ⟨0⟩, views := CInt.ofInt 0,
    startAngle := ⟨0⟩, totalScanAngle := ⟨0⟩, detZEltCount := CInt.ofInt 0,
    sid := ⟨0⟩, sdd := ⟨0⟩ }

/-! ## The device -/

/-- One call from host code into the device layer, with the argument values passed. -/
inductive DeviceCall where
  | InitializeU_Agent (u : DevPtr) (detEltCount : CInt) (detEltSize : CFloat)
  | InitializeBeta_Agent (beta : DevPtr) (views : CInt) (startAngle totalScanAngle : CFloat)
  | cudaDeviceSynchronize
  | InitializeParams_Agent (angles : CFloat × CFloat) (counts : CInt × CInt)
  | ForwardProjectionBilinear_Agent (image sgm : DevPtr) (sid sdd : CFloat)
      (u v beta : DevPtr) (config : FPConfig) (z_idx : CInt) (stream : cudaStream_t)
  | FreeMemory_Agent (p : DevPtr)
  deriving DecidableEq

/-- The device as the host code sees it: the calls issued so far (oldest first), the
live device buffers with their element counts, and the last address handed out. -/
structure Device where
  calls : List DeviceCall
  live : List (DevPtr × Nat)
  last : DevPtr
  deriving DecidableEq

/-- A device on which nothing has happened yet. -/
def Device.init : Device := { calls := [], live := [], last := 0 }

/-- The element count of the live buffer at `p`, if there is one. -/
def Device.size (d : Device) (p : DevPtr) : Option Nat :=
  (d.live.find? (fun b => b.1 == p)).map Prod.snd

/-- Modelled from the spec: `InitializeU_Agent(outBuffer, detEltCount, detEltSize)`
(cudaFunction.hpp and the kernels are not among the sources) allocates and fills
`outBuffer[detEltCount]`.  The call is recorded, a fresh buffer of `detEltCount`
elements becomes live (none for a negative count), and its address is returned for
`outBuffer`. -/
def InitializeU_Agent (u : DevPtr) (detEltCount : CInt) (detEltSize : CFloat)
    (d : Device) : DevPtr × Device :=
  (d.last + 1,
   { calls := d.calls ++ [DeviceCall.InitializeU_Agent u detEltCount detEltSize],
     live := d.live ++ [(d.last + 1, detEltCount.val.toNat)],
     last := d.last + 1 })

/-- Modelled from the spec: `InitializeBeta_Agent(outBuffer, viewCount, startAngle,
totalScanAngle)` (not among the sources) allocates and fills `outBuffer[viewCount]`. -/
def InitializeBeta_Agent (beta : DevPtr) (views : CInt) (startAngle totalScanAngle : CFloat)
    (d : Device) : DevPtr × Device :=
  (d.last + 1,
   { calls := d.calls ++ [DeviceCall.InitializeBeta_Agent beta views startAngle totalScanAngle],
     live := d.live ++ [(d.last + 1, views.val.toNat)],
     last := d.last + 1 })

/-- Modelled from the spec: the device-wide synchronization primitive (CUDA runtime). -/
def cudaDeviceSynchronize (d : Device) : Device :=
  { d with calls := d.calls ++ [DeviceCall.cudaDeviceSynchronize] }

/-- Modelled from the spec: `InitializeParams_Agent` (not among the sources) pushes the
scalar parameters to device-resident configuration; only the call is recorded. -/
def InitializeParams_Agent (angles : CFloat × CFloat) (counts : CInt × CInt)
    (d : Device) : Device :=
  { d with calls := d.calls ++ [DeviceCall.InitializeParams_Agent angles counts] }

/-- Modelled from the spec: `ForwardProjectionBilinear_Agent` (not among the sources)
launches one slice's projection kernel; only the launch is recorded. -/
def ForwardProjectionBilinear_Agent (image sgm : DevPtr) (sid sdd : CFloat)
    (u v beta : DevPtr) (config : FPConfig) (z_idx : CInt) (stream : cudaStream_t)
    (d : Device) : Device :=
  { d with calls := d.calls ++
      [DeviceCall.ForwardProjectionBilinear_Agent image sgm sid sdd u v beta config z_idx stream] }

/-- Modelled from the spec: `FreeMemory_Agent(ptr)` (not among the sources) releases a
device buffer.  The call is recorded and the buffer at `ptr` stops being live; the
caller's pointer variable is not touched. -/
def FreeMemory_Agent (p : DevPtr) (d : Device) : Device :=
  { d with calls := d.calls ++ [DeviceCall.FreeMemory_Agent p],
           live := d.live.filter (fun b => !(b.1 == p)) }

/-! ## Standard output -/

/-- The backspace character `\b`. -/
def bs : Char := Char.ofNat 8

/-- The newline character `\n`. -/
def nl : Char := Char.ofNat 10

/-- The conversion `%3d` of `printf`: the decimal digits of the value, a leading `-`
for a negative one, padded on the left with spaces to at least three characters. -/
def fmt3d (x : Int) : List Char :=
  let body := if x < 0 then '-' :: Nat.toDigits 10 x.natAbs else Nat.toDigits 10 x.natAbs
  List.replicate (3 - body.length) ' ' ++ body

/-- The text of `printf("%3d/%3d", a, b)`. -/
def fmtProgress (a b : CInt) : List Char := fmt3d a.val ++ '/' :: fmt3d b.val

/-- The text of `printf("\nProcessing slice# ")`. -/
def header : List Char := nl :: "Processing slice# ".toList

/-- The text of `printf("\b\b\b\b\b\b\b")`. -/
def backspaces : List Char := [bs, bs, bs, bs, bs, bs, bs]

/-! ## The class -/

/-- The program state the class works on: the static members `config`, `v`, `u` and
`beta` of `lightSource`, the device, and the characters written to standard output. -/
structure World where
  config : FPConfig
  v : DevPtr
  u : DevPtr
  beta : DevPtr
  dev : Device
  stdout : List Char
  deriving DecidableEq

/-- The state at program start: statics as initialised in lightSource.cpp. -/
def World.init : World :=
  { config := FPConfig.zero, v := nullptr, u := nullptr, beta := nullptr,
    dev := Device.init, stdout := [] }

/-- The call `printf(text)` of a text without conversions: appends it to standard output. -/
def printf (text : List Char) (w : World) : World :=
  { w with stdout := w.stdout ++ text }

/-- An object of class `lightSource`.  Every data member the sources define is static,
so an object carries nothing but its identity. -/
structure lightSource where
  id : Nat
  deriving DecidableEq

/-- The method `void lightSource::InitParam()`: the two buffer initializers (each
stores the buffer it allocated in its `outBuffer` argument, `u` resp. `beta`), the
device barrier, then `InitializeParams_Agent`. -/
def lightSource.InitParam (_self : lightSource) (w : World) : World :=
  let r1 := InitializeU_Agent w.u w.config.detEltCount w.config.detEltSize w.dev
  let w1 := { w with u := r1.1, dev := r1.2 }
  let r2 := InitializeBeta_Agent w1.beta w1.config.views w1.config.startAngle
    w1.config.totalScanAngle w1.dev
  let w2 := { w1 with beta := r2.1, dev := r2.2 }
  let w3 := { w2 with dev := cudaDeviceSynchronize w2.dev }
  let d4 := InitializeParams_Agent (w3.config.startAngle, w3.config.totalScanAngle)
    (w3.config.detEltCount, w3.config.views) w3.dev
  { w3 with dev := d4 }

/-- The default constructor `lightSource::lightSource(){}`: an empty body. -/
def lightSource.ctorDefault (_self : lightSource) (w : World) : World := w

/-- The constructor `lightSource::lightSource(FPConfig config)`: `this->config = config`
assigns the static member, then `InitParam()` runs. -/
def lightSource.ctor (self : lightSource) (config : FPConfig) (w : World) : World :=
  let w1 := { w with config := config }
  self.InitParam w1

/-- The destructor `lightSource::~lightSource()`: `FreeMemory_Agent(u)`, then
`FreeMemory_Agent(beta)`. -/
def lightSource.dtor (_self : lightSource) (w : World) : World :=
  let w1 := { w with dev := FreeMemory_Agent w.u w.dev }
  { w1 with dev := FreeMemory_Agent w1.beta w1.dev }

/-- The body of the `for` loop of `ForwardProjectionBilinear` at slice `z_idx`. -/
def lightSource.sliceBody (image sgm : DevPtr) (stream : cudaStream_t) (z_idx : CInt)
    (w : World) : World :=
  let w1 := if z_idx.val ≠ 0 then printf backspaces w else w
  let w2 := printf (fmtProgress (CInt.add z_idx (CInt.ofInt 1)) w1.config.detZEltCount) w1
  let d3 := ForwardProjectionBilinear_Agent image sgm w2.config.sid w2.config.sdd
    w2.u w2.v w2.beta w2.config z_idx stream w2.dev
  { w2 with dev := d3 }

/-- The loop `for (int z_idx = ...; z_idx < config.detZEltCount; z_idx++)`, running at
most `fuel` iterations; `none` when the fuel runs out before the guard fails. -/
def lightSource.sliceLoop (image sgm : DevPtr) (stream : cudaStream_t) :
    Nat → CInt → World → Option World
  | 0, z_idx, w =>
    if z_idx.val < w.config.detZEltCount.val then none else some w
  | fuel + 1, z_idx, w =>
    if z_idx.val < w.config.detZEltCount.val then
      lightSource.sliceLoop image sgm stream fuel (CInt.add z_idx (CInt.ofInt 1))
        (lightSource.sliceBody image sgm stream z_idx w)
    else some w

/-- The method `void lightSource::ForwardProjectionBilinear(float* image, float* sgm,
cudaStream_t stream)`: prints the header, then runs the slice loop from `z_idx = 0`,
bounded here by `fuel` iterations. -/
def lightSource.ForwardProjectionBilinear (_self : lightSource) (fuel : Nat)
    (image sgm : DevPtr) (stream : cudaStream_t) (w : World) : Option World :=
  lightSource.sliceLoop image sgm stream fuel (CInt.ofInt 0) (printf header w)

/-! ## A terminal

The screen on which the progress output is read: a backspace moves the cursor one
column left and later characters overwrite what is under the cursor. -/

/-- A terminal screen: the finished lines (newest first) and the current line, split at
the cursor (`left` holds the characters before the cursor, nearest first). -/
structure Terminal where
  finished : List (List Char)
  left : List Char
  right : List Char
  deriving DecidableEq

/-- An empty screen. -/
def Terminal.init : Terminal := { finished := [], left := [], right := [] }

/-- The effect of one character: a newline starts a new line, a backspace moves the
cursor one column left (staying at the first column), any other character overwrites
the cell under the cursor and advances. -/
def Terminal.put (t : Terminal) (c : Char) : Terminal :=
  if c = nl then
    { finished := (t.left.reverse ++ t.right) :: t.finished, left := [], right := [] }
  else if c = bs then
    match t.left with
    | [] => t
    | x :: l => { t with left := l, right := x :: t.right }
  else
    { t with left := c :: t.left, right := t.right.tail }

/-- The lines visible after `text` has been written to an empty terminal, top first. -/
def render (text : List Char) : List (List Char) :=
  let t := text.foldl Terminal.put Terminal.init
  (t.finished.reverse) ++ [t.left.reverse ++ t.right]

/-! ## Descriptions of what the loop produces -/

/-- The kernel launch of slice `k` as issued from state `w`. -/
def launch (image sgm : DevPtr) (stream : cudaStream_t) (w : World) (k : Nat) : DeviceCall :=
  DeviceCall.ForwardProjectionBilinear_Agent image sgm w.config.sid w.config.sdd
    w.u w.v w.beta w.config (CInt.ofInt k) stream

/-- The launches of the `m` slices `k, k+1, ..., k+m-1`, in that order. -/
def launches (image sgm : DevPtr) (stream : cudaStream_t) (w : World) (k m : Nat) :
    List DeviceCall :=
  (List.range' k m).map (launch image sgm stream w)

/-- The characters one iteration prints at slice `k` when the slice count is `n`. -/
def sliceText (n : CInt) (k : Nat) : List Char :=
  (if k = 0 then [] else backspaces) ++ fmtProgress (CInt.ofInt (k + 1)) n

/-- The characters printed by the iterations for slices `k, ..., k+m-1`. -/
def progressText (n : CInt) (k m : Nat) : List Char :=
  ((List.range' k m).map (sliceText n)).flatten

/-- The state after the iterations for slices `k, ..., k+m-1` have run from `w`. -/
def afterSlices (image sgm : DevPtr) (stream : cudaStream_t) (w : World) (k m : Nat) : World :=
  { w with
    dev := { w.dev with calls := w.dev.calls ++ launches image sgm stream w k m },
    stdout := w.stdout ++ progressText w.config.detZEltCount k m }

/-- The characters `"Processing slice# "` of the progress line. -/
def progressLabel : List Char := "Processing slice# ".toList

/-! ## Concrete scenarios -/

/-- A configuration with the given z-element count, all other fields zero. -/
def cfgZ (n : CInt) : FPConfig := { FPConfig.zero with detZEltCount := n }

/-- The start state with a stored configuration of three z-slices. -/
def world3 : World := { World.init with config := cfgZ (CInt.ofInt 3) }

/-- The start state with a stored configuration whose z-element count is `-2`. -/
def worldNeg : World := { World.init with config := cfgZ (CInt.ofInt (-2)) }

/-- A first object of the class. -/
def instA : lightSource := ⟨0⟩

/-- A second object of the class. -/
def instB : lightSource := ⟨1⟩

/-- A configuration with one z-slice. -/
def cfgA : FPConfig := cfgZ (CInt.ofInt 1)

/-- A configuration with two z-slices. -/
def cfgB : FPConfig := cfgZ (CInt.ofInt 2)

/-- The state after `instA` was constructed with `cfgA` and then `instB` with `cfgB`. -/
def worldAB : World := instB.ctor cfgB (instA.ctor cfgA World.init)

/-- Well-formed device memory: every live buffer sits at an address already handed out,
so the next allocation is fresh. -/
def Device.wf (d : Device) : Prop := ∀ b ∈ d.live, b.1 ≤ d.last

instance Device.wf_decidable (d : Device) : Decidable d.wf :=
  inferInstanceAs (Decidable (∀ b ∈ d.live, b.1 ≤ d.last))

/-- A configuration whose detector element count is `-1`. -/
def cfgNegDet : FPConfig := { FPConfig.zero with detEltCount := CInt.ofInt (-1) }

/-- A configuration with 5 detector elements, 4 views and 3 z-slices. -/
def cfg543 : FPConfig :=
  { FPConfig.zero with detEltCount := CInt.ofInt 5, views := CInt.ofInt 4,
                       detZEltCount := CInt.ofInt 3 }

/-- The start state with a stored configuration of zero z-slices. -/
def world0 : World := { World.init with config := cfgZ (CInt.ofInt 0) }

/-- The start state with a stored configuration of 1000 z-slices. -/
def world1000 : World := { World.init with config := cfgZ (CInt.ofInt 1000) }

/-- The screen while the progress line shows `shown` after the label: one finished
(empty) line above, the cursor at the end of the progress line. -/
def progressScreen (shown : List Char) : Terminal :=
  { finished := [[]], left := (progressLabel ++ shown).reverse, right := [] }

/-! # Theorems -/

theorem wrapInt_id (x : Int) (h : -2147483648 ≤ x ∧ x < 2147483648) : wrapInt x = x := by
  unfold wrapInt
  omega

/-! ## The loop -/

theorem CInt.ofInt_val_nat (k : Nat) (h : (k : Int) < 2147483648) :
    (CInt.ofInt (k : Int)).val = (k : Int) := by
  show wrapInt (k : Int) = (k : Int)
  exact wrapInt_id _ ⟨by omega, h⟩

theorem CInt.eq_ofInt (z : CInt) (k : Nat) (h : z.val = (k : Int)) : z = CInt.ofInt (k : Int) := by
  apply Subtype.ext
  have hz := z.property
  rw [CInt.ofInt_val_nat k (by omega)]
  exact h

theorem CInt.add_one (z : CInt) (k : Nat) (h : z.val = (k : Int)) :
    CInt.add z (CInt.ofInt 1) = CInt.ofInt ((k + 1 : Nat) : Int) := by
  have h1 : (CInt.ofInt 1).val = 1 := by
    show wrapInt 1 = 1
    exact wrapInt_id _ (by omega)
  unfold CInt.add
  rw [h1, h]
  rfl

theorem sliceBody_eq (image sgm : DevPtr) (stream : cudaStream_t) (z : CInt) (k : Nat)
    (h : z.val = (k : Int)) (w : World) :
    lightSource.sliceBody image sgm stream z w =
      { w with
        dev := { w.dev with calls := w.dev.calls ++ [launch image sgm stream w k] },
        stdout := w.stdout ++ sliceText w.config.detZEltCount k } := by
  have hz : z = CInt.ofInt (k : Int) := CInt.eq_ofInt z k h
  have ha := CInt.add_one z k h
  unfold lightSource.sliceBody sliceText launch ForwardProjectionBilinear_Agent printf
  rw [ha, ← hz]
  by_cases hk : k = 0
  · have : z.val = 0 := by rw [h, hk]; rfl
    simp [hk, this]
  · have : z.val ≠ 0 := by rw [h]; exact_mod_cast hk
    simp [hk, this]

theorem sliceBody_dev_mem (image sgm : DevPtr) (stream : cudaStream_t) (z : CInt) (w : World) :
    (lightSource.sliceBody image sgm stream z w).dev.live = w.dev.live ∧
    (lightSource.sliceBody image sgm stream z w).dev.last = w.dev.last := by
  unfold lightSource.sliceBody ForwardProjectionBilinear_Agent printf
  split <;> exact ⟨rfl, rfl⟩

theorem afterSlices_zero (image sgm : DevPtr) (stream : cudaStream_t) (w : World) (k : Nat) :
    afterSlices image sgm stream w k 0 = w := by
  cases w with
  | mk config v u beta dev stdout =>
    cases dev
    simp [afterSlices, launches, progressText]

/-- The loop started at slice `k` with enough fuel runs the remaining
`(detZEltCount - k)` iterations (none when that is not positive) and returns. -/
theorem sliceLoop_run (image sgm : DevPtr) (stream : cudaStream_t) :
    ∀ (m fuel k : Nat) (z : CInt) (w : World),
      z.val = (k : Int) → (w.config.detZEltCount.val - (k : Int)).toNat = m → m ≤ fuel →
      lightSource.sliceLoop image sgm stream fuel z w
        = some (afterSlices image sgm stream w k m) := by
  intro m
  induction m with
  | zero =>
    intro fuel k z w hz hm _
    have hg : ¬ (z.val < w.config.detZEltCount.val) := by omega
    rw [afterSlices_zero]
    cases fuel <;> simp [lightSource.sliceLoop, hg]
  | succ m ih =>
    intro fuel k z w hz hm hf
    have hg : z.val < w.config.detZEltCount.val := by omega
    have hn := w.config.detZEltCount.property
    obtain ⟨f, rfl⟩ : ∃ f, fuel = f + 1 := ⟨fuel - 1, by omega⟩
    have hz1 : (CInt.add z (CInt.ofInt 1)).val = ((k + 1 : Nat) : Int) := by
      rw [CInt.add_one z k hz]
      exact CInt.ofInt_val_nat (k + 1) (by omega)
    have hb := sliceBody_eq image sgm stream z k hz w
    have step := ih f (k + 1) (CInt.add z (CInt.ofInt 1))
      (lightSource.sliceBody image sgm stream z w) hz1
      (by rw [hb]; show (w.config.detZEltCount.val - ((k + 1 : Nat) : Int)).toNat = m; omega)
      (by omega)
    simp only [lightSource.sliceLoop, hg, if_true]
    rw [step, hb]
    simp [afterSlices, launches, progressText, launch, List.range'_succ, List.append_assoc]

/-- With at least `detZEltCount` iterations of fuel `ForwardProjectionBilinear` returns,
having printed the header and run every slice from 0. -/
theorem ForwardProjectionBilinear_run (self : lightSource) (fuel : Nat) (image sgm : DevPtr)
    (stream : cudaStream_t) (w : World) (hf : w.config.detZEltCount.val.toNat ≤ fuel) :
    self.ForwardProjectionBilinear fuel image sgm stream w
      = some (afterSlices image sgm stream (printf header w) 0
          w.config.detZEltCount.val.toNat) := by
  unfold lightSource.ForwardProjectionBilinear
  have h0 : (CInt.ofInt 0).val = ((0 : Nat) : Int) := by
    show wrapInt 0 = 0
    exact wrapInt_id _ (by omega)
  exact sliceLoop_run image sgm stream _ fuel 0 (CInt.ofInt 0) (printf header w) h0
    (by simp [printf]) hf

/-! ## ForwardProjectionBilinear -/

/-- C1: for a stored configuration with `detZEltCount = n ≥ 0`, and any image, sgm and
stream, `ForwardProjectionBilinear` (given fuel for `n` iterations) returns, and the
device calls it issues are exactly the `n` launches of `ForwardProjectionBilinear_Agent`
with slice indices `0, 1, ..., n-1` in increasing order: nothing precedes, separates or
follows them, so in particular no synchronization follows the loop. -/
theorem C1_launches_every_slice_in_order (self : lightSource) (fuel : Nat)
    (image sgm : DevPtr) (stream : cudaStream_t) (w : World)
    (hn : 0 ≤ w.config.detZEltCount.val) (hf : w.config.detZEltCount.val.toNat ≤ fuel) :
    ∃ w' issued, self.ForwardProjectionBilinear fuel image sgm stream w = some w' ∧
      w'.dev.calls = w.dev.calls ++ issued ∧
      issued = (List.range w.config.detZEltCount.val.toNat).map (fun (k : Nat) =>
        DeviceCall.ForwardProjectionBilinear_Agent image sgm w.config.sid w.config.sdd
          w.u w.v w.beta w.config (CInt.ofInt (k : Int)) stream) ∧
      (issued.length : Int) = w.config.detZEltCount.val ∧
      ∀ k : Nat, k < w.config.detZEltCount.val.toNat → (CInt.ofInt (k : Int)).val = (k : Int) := by
  refine ⟨_, launches image sgm stream (printf header w) 0 w.config.detZEltCount.val.toNat,
    ForwardProjectionBilinear_run self fuel image sgm stream w hf, ?_, ?_, ?_, ?_⟩
  · simp [afterSlices, printf]
  · simp [launches, launch, printf, List.range_eq_range']
  · simp [launches]
    omega
  · intro k hk
    have hp := w.config.detZEltCount.property
    exact CInt.ofInt_val_nat k (by omega)

theorem C1_launches_every_slice_in_order_witness :
    (0 ≤ world3.config.detZEltCount.val ∧ world3.config.detZEltCount.val.toNat ≤ 3) ∧
    ∃ w' issued, lightSource.ForwardProjectionBilinear ⟨0⟩ 3 7 8 9 world3 = some w' ∧
      w'.dev.calls = world3.dev.calls ++ issued ∧
      issued = (List.range world3.config.detZEltCount.val.toNat).map (fun (k : Nat) =>
        DeviceCall.ForwardProjectionBilinear_Agent 7 8 world3.config.sid world3.config.sdd
          world3.u world3.v world3.beta world3.config (CInt.ofInt (k : Int)) 9) ∧
      (issued.length : Int) = world3.config.detZEltCount.val ∧
      ∀ k : Nat, k < world3.config.detZEltCount.val.toNat → (CInt.ofInt (k : Int)).val = (k : Int) :=
  ⟨⟨by decide, by decide⟩,
   C1_launches_every_slice_in_order ⟨0⟩ 3 7 8 9 world3 (by decide) (by decide)⟩

/-- C8: every kernel launch issued by `ForwardProjectionBilinear(image, sgm, stream)`
carries the caller's `image`, `sgm` and `stream` and the stored `config`, `config.sid`,
`config.sdd`, `u`, `v` and `beta`; launches differ in the slice index only, and the
stored `config`, `u`, `v` and `beta` are the same when the call returns. -/
theorem C8_launch_arguments_and_frame (self : lightSource) (fuel : Nat)
    (image sgm : DevPtr) (stream : cudaStream_t) (w : World)
    (hf : w.config.detZEltCount.val.toNat ≤ fuel) :
    ∃ w' issued, self.ForwardProjectionBilinear fuel image sgm stream w = some w' ∧
      w'.dev.calls = w.dev.calls ++ issued ∧
      (∀ e ∈ issued, ∃ z_idx : CInt, e =
        DeviceCall.ForwardProjectionBilinear_Agent image sgm w.config.sid w.config.sdd
          w.u w.v w.beta w.config z_idx stream) ∧
      w'.config = w.config ∧ w'.u = w.u ∧ w'.v = w.v ∧ w'.beta = w.beta := by
  refine ⟨_, launches image sgm stream (printf header w) 0 w.config.detZEltCount.val.toNat,
    ForwardProjectionBilinear_run self fuel image sgm stream w hf, ?_, ?_, rfl, rfl, rfl, rfl⟩
  · simp [afterSlices, printf]
  · intro e he
    simp only [launches, List.mem_map] at he
    obtain ⟨k, _, rfl⟩ := he
    exact ⟨CInt.ofInt (k : Int), rfl⟩

theorem C8_launch_arguments_and_frame_witness :
    world3.config.detZEltCount.val.toNat ≤ 4 ∧
    ∃ w' issued, lightSource.ForwardProjectionBilinear ⟨0⟩ 4 7 8 9 world3 = some w' ∧
      w'.dev.calls = world3.dev.calls ++ issued ∧
      (∀ e ∈ issued, ∃ z_idx : CInt, e =
        DeviceCall.ForwardProjectionBilinear_Agent 7 8 world3.config.sid world3.config.sdd
          world3.u world3.v world3.beta world3.config z_idx 9) ∧
      w'.config = world3.config ∧ w'.u = world3.u ∧ w'.v = world3.v ∧ w'.beta = world3.beta :=
  ⟨by decide, C8_launch_arguments_and_frame ⟨0⟩ 4 7 8 9 world3 (by decide)⟩

/-- C10: for a stored configuration with `detZEltCount ≤ 0` (negative values included),
`ForwardProjectionBilinear` returns whatever the fuel (the loop body never runs), issues
no device call, and writes exactly the header `"\nProcessing slice# "`, which holds no
backspace; no counter is printed. -/
theorem C10_no_slices_header_only (self : lightSource) (fuel : Nat)
    (image sgm : DevPtr) (stream : cudaStream_t) (w : World)
    (hn : w.config.detZEltCount.val ≤ 0) :
    self.ForwardProjectionBilinear fuel image sgm stream w
        = some { w with stdout := w.stdout ++ header } ∧
      ({ w with stdout := w.stdout ++ header } : World).dev.calls = w.dev.calls ∧
      header = nl :: progressLabel ∧ bs ∉ header := by
  refine ⟨?_, rfl, rfl, by decide⟩
  have h0 : w.config.detZEltCount.val.toNat = 0 := by omega
  rw [ForwardProjectionBilinear_run self fuel image sgm stream w (by omega), h0,
    afterSlices_zero]
  rfl

theorem C10_no_slices_header_only_witness :
    worldNeg.config.detZEltCount.val ≤ 0 ∧
    (lightSource.ForwardProjectionBilinear ⟨0⟩ 0 7 8 9 worldNeg
        = some { worldNeg with stdout := worldNeg.stdout ++ header } ∧
      ({ worldNeg with stdout := worldNeg.stdout ++ header } : World).dev.calls
        = worldNeg.dev.calls ∧
      header = nl :: progressLabel ∧ bs ∉ header) :=
  ⟨by decide, C10_no_slices_header_only ⟨0⟩ 0 7 8 9 worldNeg (by decide)⟩

/-! ## Helpers for closed statements -/

theorem not_exists_of_map_decide {α : Type} (o : Option α) (P : α → Prop) [DecidablePred P]
    (h : o.map (fun a => decide (P a)) = some false) : ¬ ∃ a, o = some a ∧ P a := by
  rintro ⟨a, rfl, hp⟩
  simp at h
  exact h hp

/-! ## Construction, InitParam and destruction -/

theorem InitParam_calls (self : lightSource) (w : World) :
    (self.InitParam w).dev.calls = w.dev.calls ++
      [DeviceCall.InitializeU_Agent w.u w.config.detEltCount w.config.detEltSize,
       DeviceCall.InitializeBeta_Agent w.beta w.config.views w.config.startAngle
         w.config.totalScanAngle,
       DeviceCall.cudaDeviceSynchronize,
       DeviceCall.InitializeParams_Agent (w.config.startAngle, w.config.totalScanAngle)
         (w.config.detEltCount, w.config.views)] := by
  simp [lightSource.InitParam, InitializeU_Agent, InitializeBeta_Agent, cudaDeviceSynchronize,
    InitializeParams_Agent]

/-- C3 (as stated, refuted): in the calls `InitParam` issues from the start state the
barrier `cudaDeviceSynchronize` is the third call and `InitializeParams_Agent` the
fourth and last, so the barrier neither follows all three initializers nor is the
last call before `InitParam` returns. -/
theorem C3_counterexample_barrier_not_last :
    (lightSource.InitParam instA World.init).dev.calls =
      [DeviceCall.InitializeU_Agent 0 (CInt.ofInt 0) ⟨0⟩,
       DeviceCall.InitializeBeta_Agent 0 (CInt.ofInt 0) ⟨0⟩ ⟨0⟩,
       DeviceCall.cudaDeviceSynchronize,
       DeviceCall.InitializeParams_Agent (⟨0⟩, ⟨0⟩) (CInt.ofInt 0, CInt.ofInt 0)] ∧
    (lightSource.InitParam instA World.init).dev.calls.getLast?
      ≠ some DeviceCall.cudaDeviceSynchronize := by
  decide

/-- C3 (amended): `InitParam` issues, in this order, `InitializeU_Agent`,
`InitializeBeta_Agent`, the barrier `cudaDeviceSynchronize` and `InitializeParams_Agent`:
the barrier follows the two buffer initializers and precedes `InitializeParams_Agent`,
which is the last call.  It is the only synchronization a `lightSource` operation
issues: the configured constructor issues exactly the calls of its `InitParam`, the
default constructor issues none, the destructor issues two `FreeMemory_Agent` calls, and
`ForwardProjectionBilinear` issues kernel launches only. -/
theorem C3_barrier_between_initializers (self : lightSource) (c : FPConfig) (fuel : Nat)
    (image sgm : DevPtr) (stream : cudaStream_t) (w : World)
    (hf : w.config.detZEltCount.val.toNat ≤ fuel) :
    (self.InitParam w).dev.calls = w.dev.calls ++
      [DeviceCall.InitializeU_Agent w.u w.config.detEltCount w.config.detEltSize,
       DeviceCall.InitializeBeta_Agent w.beta w.config.views w.config.startAngle
         w.config.totalScanAngle,
       DeviceCall.cudaDeviceSynchronize,
       DeviceCall.InitializeParams_Agent (w.config.startAngle, w.config.totalScanAngle)
         (w.config.detEltCount, w.config.views)] ∧
    self.ctor c w = self.InitParam { w with config := c } ∧
    (self.ctorDefault w).dev.calls = w.dev.calls ∧
    (self.dtor w).dev.calls = w.dev.calls ++
      [DeviceCall.FreeMemory_Agent w.u, DeviceCall.FreeMemory_Agent w.beta] ∧
    ∃ w' issued, self.ForwardProjectionBilinear fuel image sgm stream w = some w' ∧
      w'.dev.calls = w.dev.calls ++ issued ∧
      DeviceCall.cudaDeviceSynchronize ∉ issued := by
  refine ⟨InitParam_calls self w, rfl, rfl, ?_, _,
    launches image sgm stream (printf header w) 0 w.config.detZEltCount.val.toNat,
    ForwardProjectionBilinear_run self fuel image sgm stream w hf, ?_, ?_⟩
  · simp [lightSource.dtor, FreeMemory_Agent]
  · simp [afterSlices, printf]
  · simp [launches, launch]

theorem C3_barrier_between_initializers_witness :
    world3.config.detZEltCount.val.toNat ≤ 3 ∧
    ((instA.InitParam world3).dev.calls = world3.dev.calls ++
      [DeviceCall.InitializeU_Agent world3.u world3.config.detEltCount world3.config.detEltSize,
       DeviceCall.InitializeBeta_Agent world3.beta world3.config.views world3.config.startAngle
         world3.config.totalScanAngle,
       DeviceCall.cudaDeviceSynchronize,
       DeviceCall.InitializeParams_Agent (world3.config.startAngle, world3.config.totalScanAngle)
         (world3.config.detEltCount, world3.config.views)] ∧
    instA.ctor cfgB world3 = instA.InitParam { world3 with config := cfgB } ∧
    (instA.ctorDefault world3).dev.calls = world3.dev.calls ∧
    (instA.dtor world3).dev.calls = world3.dev.calls ++
      [DeviceCall.FreeMemory_Agent world3.u, DeviceCall.FreeMemory_Agent world3.beta] ∧
    ∃ w' issued, instA.ForwardProjectionBilinear 3 7 8 9 world3 = some w' ∧
      w'.dev.calls = world3.dev.calls ++ issued ∧
      DeviceCall.cudaDeviceSynchronize ∉ issued) :=
  ⟨by decide, C3_barrier_between_initializers instA cfgB 3 7 8 9 world3 (by decide)⟩

/-- C5: whatever the state, the destructor issues exactly two device calls,
`FreeMemory_Agent` on the current `u` followed by `FreeMemory_Agent` on the current
`beta`; `v` is not read: the device after destruction is the same for every value of
`v`, so no release is issued for the `v` buffer. -/
theorem C5_destructor_frees_u_then_beta (self : lightSource) (w : World) (v' : DevPtr) :
    (self.dtor w).dev.calls = w.dev.calls ++
      [DeviceCall.FreeMemory_Agent w.u, DeviceCall.FreeMemory_Agent w.beta] ∧
    (self.dtor { w with v := v' }).dev = (self.dtor w).dev := by
  constructor
  · simp [lightSource.dtor, FreeMemory_Agent]
  · rfl

/-- C7: `lightSource(c)` stores `c` as the configuration and issues, besides the barrier,
exactly three initializer calls with arguments taken from `c`:
`InitializeU_Agent(u, c.detEltCount, c.detEltSize)`,
`InitializeBeta_Agent(beta, c.views, c.startAngle, c.totalScanAngle)` and
`InitializeParams_Agent({c.startAngle, c.totalScanAngle}, {c.detEltCount, c.views})`.
The fields `detZEltCount`, `sid` and `sdd` reach no initializer: replacing them leaves
the device and the resulting `u` and `beta` the same. -/
theorem C7_constructor_initializer_calls (self : lightSource) (c : FPConfig) (w : World)
    (z : CInt) (s d : CFloat) :
    (self.ctor c w).config = c ∧
    (self.ctor c w).dev.calls = w.dev.calls ++
      [DeviceCall.InitializeU_Agent w.u c.detEltCount c.detEltSize,
       DeviceCall.InitializeBeta_Agent w.beta c.views c.startAngle c.totalScanAngle,
       DeviceCall.cudaDeviceSynchronize,
       DeviceCall.InitializeParams_Agent (c.startAngle, c.totalScanAngle)
         (c.detEltCount, c.views)] ∧
    (self.ctor { c with detZEltCount := z, sid := s, sdd := d } w).dev = (self.ctor c w).dev ∧
    (self.ctor { c with detZEltCount := z, sid := s, sdd := d } w).u = (self.ctor c w).u ∧
    (self.ctor { c with detZEltCount := z, sid := s, sdd := d } w).beta
      = (self.ctor c w).beta := by
  refine ⟨rfl, ?_, rfl, rfl, rfl⟩
  exact InitParam_calls self { w with config := c }

/-! ## Two instances -/

/-- C4 (as stated, refuted): `instA` is constructed with `cfgA` (one slice), then `instB`
with `cfgB` (two slices).  A later `instA.ForwardProjectionBilinear` does not issue the
single launch carrying `cfgA` that the claim requires. -/
theorem C4_counterexample_first_instance_sees_second_config :
    ¬ ∃ w', instA.ForwardProjectionBilinear 2 7 8 9 worldAB = some w' ∧
      w'.dev.calls = worldAB.dev.calls ++
        (List.range cfgA.detZEltCount.val.toNat).map (fun (k : Nat) =>
          DeviceCall.ForwardProjectionBilinear_Agent 7 8 cfgA.sid cfgA.sdd
            worldAB.u worldAB.v worldAB.beta cfgA (CInt.ofInt (k : Int)) 9) :=
  not_exists_of_map_decide _ _ (by decide)

/-- C4 (amended): after `A` is constructed with `c1` and then `B` with `c2`, the stored
configuration is `c2`, and a later `ForwardProjectionBilinear` on either object does the
same thing: it launches `c2.detZEltCount` slices and passes `c2`, `c2.sid` and `c2.sdd`
to the kernel.  The configuration observed is that of the latest construction. -/
theorem C4_latest_configuration_is_used (A B : lightSource) (c1 c2 : FPConfig) (fuel : Nat)
    (image sgm : DevPtr) (stream : cudaStream_t) (w : World)
    (hf : c2.detZEltCount.val.toNat ≤ fuel) :
    (B.ctor c2 (A.ctor c1 w)).config = c2 ∧
    A.ForwardProjectionBilinear fuel image sgm stream (B.ctor c2 (A.ctor c1 w))
      = B.ForwardProjectionBilinear fuel image sgm stream (B.ctor c2 (A.ctor c1 w)) ∧
    ∃ w', A.ForwardProjectionBilinear fuel image sgm stream (B.ctor c2 (A.ctor c1 w))
        = some w' ∧
      w'.dev.calls = (B.ctor c2 (A.ctor c1 w)).dev.calls ++
        (List.range c2.detZEltCount.val.toNat).map (fun (k : Nat) =>
          DeviceCall.ForwardProjectionBilinear_Agent image sgm c2.sid c2.sdd
            (B.ctor c2 (A.ctor c1 w)).u (B.ctor c2 (A.ctor c1 w)).v
            (B.ctor c2 (A.ctor c1 w)).beta c2 (CInt.ofInt (k : Int)) stream) := by
  have hc : (B.ctor c2 (A.ctor c1 w)).config = c2 := rfl
  refine ⟨hc, rfl, _, ForwardProjectionBilinear_run A fuel image sgm stream _ (by rw [hc]; exact hf), ?_⟩
  simp only [afterSlices, launches, printf, hc, List.range_eq_range']
  rfl

theorem C4_latest_configuration_is_used_witness :
    cfgB.detZEltCount.val.toNat ≤ 2 ∧
    ((instB.ctor cfgB (instA.ctor cfgA World.init)).config = cfgB ∧
    instA.ForwardProjectionBilinear 2 7 8 9 (instB.ctor cfgB (instA.ctor cfgA World.init))
      = instB.ForwardProjectionBilinear 2 7 8 9 (instB.ctor cfgB (instA.ctor cfgA World.init)) ∧
    ∃ w', instA.ForwardProjectionBilinear 2 7 8 9 (instB.ctor cfgB (instA.ctor cfgA World.init))
        = some w' ∧
      w'.dev.calls = (instB.ctor cfgB (instA.ctor cfgA World.init)).dev.calls ++
        (List.range cfgB.detZEltCount.val.toNat).map (fun (k : Nat) =>
          DeviceCall.ForwardProjectionBilinear_Agent 7 8 cfgB.sid cfgB.sdd
            (instB.ctor cfgB (instA.ctor cfgA World.init)).u
            (instB.ctor cfgB (instA.ctor cfgA World.init)).v
            (instB.ctor cfgB (instA.ctor cfgA World.init)).beta cfgB (CInt.ofInt (k : Int)) 9)) :=
  ⟨by decide, C4_latest_configuration_is_used instA instB cfgA cfgB 2 7 8 9 World.init (by decide)⟩

/-! ## Device buffers -/

theorem Device.wf_init : Device.init.wf := by
  intro b hb
  simp [Device.init] at hb

theorem ctor_u (self : lightSource) (c : FPConfig) (w : World) :
    (self.ctor c w).u = w.dev.last + 1 := rfl

theorem ctor_beta (self : lightSource) (c : FPConfig) (w : World) :
    (self.ctor c w).beta = w.dev.last + 1 + 1 := rfl

theorem ctor_live (self : lightSource) (c : FPConfig) (w : World) :
    (self.ctor c w).dev.live = w.dev.live ++
      [(w.dev.last + 1, c.detEltCount.val.toNat), (w.dev.last + 1 + 1, c.views.val.toNat)] := by
  simp [lightSource.ctor, lightSource.InitParam, InitializeU_Agent, InitializeBeta_Agent,
    cudaDeviceSynchronize, InitializeParams_Agent]

theorem find_none_of_wf (d : Device) (hw : d.wf) (p : DevPtr) (hp : d.last < p) :
    d.live.find? (fun b => b.1 == p) = none := by
  rw [List.find?_eq_none]
  intro b hb
  simp only [beq_iff_eq]
  exact Nat.ne_of_lt (Nat.lt_of_le_of_lt (hw b hb) hp)

theorem ctor_size_u (self : lightSource) (c : FPConfig) (w : World) (hw : w.dev.wf) :
    (self.ctor c w).dev.size (self.ctor c w).u = some c.detEltCount.val.toNat := by
  unfold Device.size
  rw [ctor_live, ctor_u, List.find?_append,
    find_none_of_wf w.dev hw _ (Nat.lt_succ_self w.dev.last)]
  simp [List.find?]

theorem ctor_size_beta (self : lightSource) (c : FPConfig) (w : World) (hw : w.dev.wf) :
    (self.ctor c w).dev.size (self.ctor c w).beta = some c.views.val.toNat := by
  unfold Device.size
  rw [ctor_live, ctor_beta, List.find?_append,
    find_none_of_wf w.dev hw _ (Nat.lt_succ_of_lt (Nat.lt_succ_self w.dev.last))]
  have hne : ((w.dev.last + 1 : Nat) == (w.dev.last + 1 + 1 : Nat)) = false := by
    rw [beq_eq_false_iff_ne]
    exact Nat.ne_of_lt (Nat.lt_succ_self _)
  simp [List.find?, hne]

theorem dtor_size_none (self : lightSource) (w : World) (p : DevPtr)
    (hp : p = w.u ∨ p = w.beta) : (self.dtor w).dev.size p = none := by
  unfold Device.size
  have : (self.dtor w).dev.live.find? (fun b => b.1 == p) = none := by
    rw [List.find?_eq_none]
    intro b hb
    simp only [lightSource.dtor, FreeMemory_Agent, List.mem_filter, Bool.not_eq_true',
      beq_eq_false_iff_ne, ne_eq] at hb
    simp only [beq_iff_eq]
    rcases hp with rfl | rfl
    · exact hb.1.2
    · exact hb.2
  rw [this]
  rfl

/-- Well-formedness of the device memory is kept by every operation of the class. -/
theorem Device.wf_preserved (self : lightSource) (c : FPConfig) (fuel : Nat)
    (image sgm : DevPtr) (stream : cudaStream_t) (w : World) (hw : w.dev.wf) :
    (self.ctorDefault w).dev.wf ∧ (self.ctor c w).dev.wf ∧ (self.dtor w).dev.wf ∧
    ∀ w', self.ForwardProjectionBilinear fuel image sgm stream w = some w' → w'.dev.wf := by
  refine ⟨hw, ?_, ?_, ?_⟩
  · intro b hb
    rw [ctor_live] at hb
    have hl : (self.ctor c w).dev.last = w.dev.last + 1 + 1 := rfl
    rw [hl]
    simp only [List.mem_append, List.mem_cons, List.mem_singleton, List.not_mem_nil,
      or_false] at hb
    rcases hb with hb | rfl | rfl
    · exact Nat.le_succ_of_le (Nat.le_succ_of_le (hw b hb))
    · exact Nat.le_succ _
    · exact Nat.le_refl _
  · intro b hb
    simp only [lightSource.dtor, FreeMemory_Agent, List.mem_filter] at hb
    exact hw b hb.1.1
  · intro w' h
    by_cases hf : w.config.detZEltCount.val.toNat ≤ fuel
    · rw [ForwardProjectionBilinear_run self fuel image sgm stream w hf] at h
      cases h
      exact hw
    · have key : ∀ (f : Nat) (z : CInt) (w1 w2 : World),
          lightSource.sliceLoop image sgm stream f z w1 = some w2 → w1.dev.wf → w2.dev.wf := by
        intro f
        induction f with
        | zero =>
          intro z w1 w2 h1 h2
          simp only [lightSource.sliceLoop] at h1
          split at h1
          · cases h1
          · cases h1; exact h2
        | succ f ih =>
          intro z w1 w2 h1 h2
          simp only [lightSource.sliceLoop] at h1
          split at h1
          · exact ih _ _ _ h1 (by
              intro b hb
              rw [(sliceBody_dev_mem image sgm stream z w1).1] at hb
              rw [(sliceBody_dev_mem image sgm stream z w1).2]
              exact h2 b hb)
          · cases h1; exact h2
      exact key fuel _ _ _ h hw

/-- C6 (as stated, refuted): for the configuration with `detEltCount = -1` the `u`
buffer after construction holds no element, not `-1` elements. -/
theorem C6_counterexample_negative_count :
    (instA.ctor cfgNegDet World.init).dev.size (instA.ctor cfgNegDet World.init).u = some 0 ∧
    cfgNegDet.detEltCount.val = -1 ∧
    ((instA.ctor cfgNegDet World.init).dev.size (instA.ctor cfgNegDet World.init).u).map
      Int.ofNat ≠ some cfgNegDet.detEltCount.val := by
  decide

/-- C6 (amended): under the documented contracts of the initializer kernels, for every
configuration `c` with `detEltCount ≥ 0` and `views ≥ 0`, after `lightSource(c)` returns
the `u` buffer is live with exactly `c.detEltCount` elements and the `beta` buffer is
live with exactly `c.views` elements. -/
theorem C6_buffer_sizes_after_construction (self : lightSource) (c : FPConfig) (w : World)
    (hw : w.dev.wf) (hd : 0 ≤ c.detEltCount.val) (hv : 0 ≤ c.views.val) :
    ((self.ctor c w).dev.size (self.ctor c w).u).map Int.ofNat = some c.detEltCount.val ∧
    ((self.ctor c w).dev.size (self.ctor c w).beta).map Int.ofNat = some c.views.val := by
  rw [ctor_size_u self c w hw, ctor_size_beta self c w hw]
  simp only [Option.map_some', Option.some.injEq, Int.ofNat_eq_coe]
  omega

theorem C6_buffer_sizes_after_construction_witness :
    (World.init.dev.wf ∧ 0 ≤ cfg543.detEltCount.val ∧ 0 ≤ cfg543.views.val) ∧
    (((instA.ctor cfg543 World.init).dev.size (instA.ctor cfg543 World.init).u).map Int.ofNat
      = some cfg543.detEltCount.val ∧
    ((instA.ctor cfg543 World.init).dev.size (instA.ctor cfg543 World.init).beta).map Int.ofNat
      = some cfg543.views.val) :=
  ⟨⟨by decide, by decide, by decide⟩,
   C6_buffer_sizes_after_construction instA cfg543 World.init (by decide) (by decide)
     (by decide)⟩

/-- C9: the default constructor issues no device call and changes nothing (`config`,
`u`, `v` and `beta` included), yet destroying a default-constructed object `D` issues
`FreeMemory_Agent` on the class-wide `u` and `beta`.  After "construct `A` with `c`;
default-construct `D`; destroy `D`" (with `A` never destroyed) the two calls issued by
the destructor release exactly the `u` and `beta` buffers that the construction of `A`
set up: they were live before, they are no longer live, and the class still holds
their addresses and `A`'s configuration. -/
theorem C9_default_instance_frees_shared_buffers (A D : lightSource) (c : FPConfig)
    (w : World) (hw : w.dev.wf) :
    D.ctorDefault w = w ∧
    D.ctorDefault (A.ctor c w) = A.ctor c w ∧
    (D.dtor (D.ctorDefault (A.ctor c w))).dev.calls = (A.ctor c w).dev.calls ++
      [DeviceCall.FreeMemory_Agent (A.ctor c w).u,
       DeviceCall.FreeMemory_Agent (A.ctor c w).beta] ∧
    (A.ctor c w).dev.size (A.ctor c w).u = some c.detEltCount.val.toNat ∧
    (A.ctor c w).dev.size (A.ctor c w).beta = some c.views.val.toNat ∧
    (D.dtor (D.ctorDefault (A.ctor c w))).dev.size (A.ctor c w).u = none ∧
    (D.dtor (D.ctorDefault (A.ctor c w))).dev.size (A.ctor c w).beta = none ∧
    (D.dtor (D.ctorDefault (A.ctor c w))).u = (A.ctor c w).u ∧
    (D.dtor (D.ctorDefault (A.ctor c w))).beta = (A.ctor c w).beta ∧
    (D.dtor (D.ctorDefault (A.ctor c w))).config = c := by
  refine ⟨rfl, rfl, ?_, ctor_size_u A c w hw, ctor_size_beta A c w hw, ?_, ?_, rfl, rfl, rfl⟩
  · simp [lightSource.dtor, lightSource.ctorDefault, FreeMemory_Agent]
  · exact dtor_size_none D _ _ (Or.inl rfl)
  · exact dtor_size_none D _ _ (Or.inr rfl)

theorem C9_default_instance_frees_shared_buffers_witness :
    World.init.dev.wf ∧
    (instB.ctorDefault World.init = World.init ∧
    instB.ctorDefault (instA.ctor cfg543 World.init) = instA.ctor cfg543 World.init ∧
    (instB.dtor (instB.ctorDefault (instA.ctor cfg543 World.init))).dev.calls
      = (instA.ctor cfg543 World.init).dev.calls ++
      [DeviceCall.FreeMemory_Agent (instA.ctor cfg543 World.init).u,
       DeviceCall.FreeMemory_Agent (instA.ctor cfg543 World.init).beta] ∧
    (instA.ctor cfg543 World.init).dev.size (instA.ctor cfg543 World.init).u
      = some cfg543.detEltCount.val.toNat ∧
    (instA.ctor cfg543 World.init).dev.size (instA.ctor cfg543 World.init).beta
      = some cfg543.views.val.toNat ∧
    (instB.dtor (instB.ctorDefault (instA.ctor cfg543 World.init))).dev.size
      (instA.ctor cfg543 World.init).u = none ∧
    (instB.dtor (instB.ctorDefault (instA.ctor cfg543 World.init))).dev.size
      (instA.ctor cfg543 World.init).beta = none ∧
    (instB.dtor (instB.ctorDefault (instA.ctor cfg543 World.init))).u
      = (instA.ctor cfg543 World.init).u ∧
    (instB.dtor (instB.ctorDefault (instA.ctor cfg543 World.init))).beta
      = (instA.ctor cfg543 World.init).beta ∧
    (instB.dtor (instB.ctorDefault (instA.ctor cfg543 World.init))).config = cfg543) :=
  ⟨by decide, C9_default_instance_frees_shared_buffers instA instB cfg543 World.init (by decide)⟩

/-! ## The progress line on a terminal -/

theorem put_plain (t : Terminal) (c : Char) (h : c ≠ nl ∧ c ≠ bs) :
    t.put c = { t with left := c :: t.left, right := t.right.tail } := by
  simp [Terminal.put, h.1, h.2]

theorem foldl_put_plain (xs : List Char) (hx : ∀ c ∈ xs, c ≠ nl ∧ c ≠ bs) (t : Terminal) :
    xs.foldl Terminal.put t
      = { t with left := xs.reverse ++ t.left, right := t.right.drop xs.length } := by
  induction xs generalizing t with
  | nil => cases t; simp
  | cons c xs ih =>
    rw [List.foldl_cons, put_plain t c (hx c (List.mem_cons_self c xs)),
      ih (fun d hd => hx d (List.mem_cons_of_mem c hd))]
    cases t
    simp

theorem fmt3d_small : ∀ k : Nat, k < 1000 →
    ((fmt3d (k : Int)).length = 3 ∧ ∀ c ∈ fmt3d (k : Int), c ≠ nl ∧ c ≠ bs) := by
  decide!

theorem fmtProgress_small (a b : CInt) (ha : 0 ≤ a.val ∧ a.val < 1000)
    (hb : 0 ≤ b.val ∧ b.val < 1000) :
    (fmtProgress a b).length = 7 ∧ ∀ c ∈ fmtProgress a b, c ≠ nl ∧ c ≠ bs := by
  obtain ⟨x, hx⟩ : ∃ x : Nat, a.val = (x : Int) := ⟨a.val.toNat, by omega⟩
  obtain ⟨y, hy⟩ : ∃ y : Nat, b.val = (y : Int) := ⟨b.val.toNat, by omega⟩
  have h1 := fmt3d_small x (by omega)
  have h2 := fmt3d_small y (by omega)
  unfold fmtProgress
  rw [hx, hy]
  constructor
  · simp [h1.1, h2.1]
  · intro c hc
    simp only [List.mem_append, List.mem_cons] at hc
    rcases hc with hc | rfl | hc
    · exact h1.2 c hc
    · decide
    · exact h2.2 c hc

theorem exists_seven (xs : List Char) (h : xs.length = 7) :
    ∃ a b c d e f g, xs = [a, b, c, d, e, f, g] := by
  match xs, h with
  | [a, b, c, d, e, f, g], _ => exact ⟨a, b, c, d, e, f, g, rfl⟩

/-- Seven backspaces followed by seven ordinary characters replace the last seven
characters of the line. -/
theorem overwrite_seven (old new : List Char) (ho : old.length = 7) (hn : new.length = 7)
    (hp : ∀ c ∈ new, c ≠ nl ∧ c ≠ bs) :
    (backspaces ++ new).foldl Terminal.put (progressScreen old) = progressScreen new := by
  obtain ⟨a, b, c, d, e, f, g, rfl⟩ := exists_seven old ho
  have hbs : bs ≠ nl := by decide
  have h7 : backspaces.foldl Terminal.put (progressScreen [a, b, c, d, e, f, g])
      = { finished := [[]], left := progressLabel.reverse, right := [a, b, c, d, e, f, g] } := by
    simp [backspaces, progressScreen, Terminal.put, hbs]
  rw [List.foldl_append, h7, foldl_put_plain new hp]
  simp [progressScreen, hn]

theorem first_slice (new : List Char) (hp : ∀ c ∈ new, c ≠ nl ∧ c ≠ bs) :
    (header ++ new).foldl Terminal.put Terminal.init = progressScreen new := by
  have hh : header.foldl Terminal.put Terminal.init
      = { finished := [[]], left := progressLabel.reverse, right := [] } := by
    decide
  rw [List.foldl_append, hh, foldl_put_plain new hp]
  simp [progressScreen]

theorem progressText_succ (n : CInt) (k m : Nat) :
    progressText n k (m + 1) = sliceText n k ++ progressText n (k + 1) m := by
  simp [progressText, List.range'_succ]

/-- From the screen showing `k/n` (with `1 ≤ k`), the iterations for slices
`k, ..., k+m-1` leave the screen showing `(k+m)/n`, as long as `k+m` and `n` have at
most three digits. -/
theorem slices_on_screen (n : CInt) (hn : 0 ≤ n.val ∧ n.val < 1000) :
    ∀ (m k : Nat), 1 ≤ k → k + m < 1000 →
      (progressText n k m).foldl Terminal.put
          (progressScreen (fmtProgress (CInt.ofInt (k : Int)) n))
        = progressScreen (fmtProgress (CInt.ofInt ((k + m : Nat) : Int)) n) := by
  intro m
  induction m with
  | zero =>
    intro k _ _
    simp [progressText]
  | succ m ih =>
    intro k hk hkm
    have hv : ∀ j : Nat, j < 1000 →
        0 ≤ (CInt.ofInt (j : Int)).val ∧ (CInt.ofInt (j : Int)).val < 1000 := by
      intro j hj
      rw [CInt.ofInt_val_nat j (by omega)]
      omega
    have hold := fmtProgress_small (CInt.ofInt (k : Int)) n (hv k (by omega)) hn
    have hnew := fmtProgress_small (CInt.ofInt ((k + 1 : Nat) : Int)) n (hv (k + 1) (by omega)) hn
    have hs : sliceText n k = backspaces ++ fmtProgress (CInt.ofInt ((k + 1 : Nat) : Int)) n := by
      have : k ≠ 0 := by omega
      simp [sliceText, this]
    rw [progressText_succ, List.foldl_append, hs, overwrite_seven _ _ hold.1 hnew.1 hnew.2,
      ih (k + 1) (by omega) (by omega)]
    have : k + 1 + m = k + (m + 1) := by omega
    rw [this]

/-- What the whole output of a run with `1 ≤ n ≤ 999` slices looks like on a terminal. -/
theorem render_progress (n : CInt) (h1 : 1 ≤ n.val) (h2 : n.val ≤ 999) :
    render (header ++ progressText n 0 n.val.toNat) = [[], progressLabel ++ fmtProgress n n] := by
  obtain ⟨m, hm⟩ : ∃ m : Nat, n.val.toNat = m + 1 := ⟨n.val.toNat - 1, by omega⟩
  have hn : 0 ≤ n.val ∧ n.val < 1000 := by omega
  have h1v : 0 ≤ (CInt.ofInt ((1 : Nat) : Int)).val ∧ (CInt.ofInt ((1 : Nat) : Int)).val < 1000 := by
    rw [CInt.ofInt_val_nat 1 (by omega)]
    omega
  have hfirst := fmtProgress_small (CInt.ofInt ((1 : Nat) : Int)) n h1v hn
  have hs : sliceText n 0 = fmtProgress (CInt.ofInt ((1 : Nat) : Int)) n := by
    simp [sliceText]
  have hlast : CInt.ofInt ((1 + m : Nat) : Int) = n := by
    symm
    apply CInt.eq_ofInt
    omega
  unfold render
  rw [hm, progressText_succ, ← List.append_assoc, List.foldl_append, hs,
    first_slice _ hfirst.2, slices_on_screen n hn m 1 (by omega) (by omega), hlast]
  simp [progressScreen]

/-- C2 (as stated, refuted): with `detZEltCount = 0` the progress line shows the label
only, not `0/0`; with `detZEltCount = 1000` each counter is eight characters wide, the
seven backspaces leave one character of every earlier counter behind, and the line
does not read the label followed by `1000/1000`. -/
theorem C2_counterexample_zero_and_thousand :
    (¬ ∃ w' text, instA.ForwardProjectionBilinear 0 7 8 9 world0 = some w' ∧
      w'.stdout = world0.stdout ++ text ∧
      render text = [[], progressLabel ++ fmtProgress (CInt.ofInt 0) (CInt.ofInt 0)]) ∧
    (¬ ∃ w' text, instA.ForwardProjectionBilinear 1000 7 8 9 world1000 = some w' ∧
      w'.stdout = world1000.stdout ++ text ∧
      render text = [[], progressLabel ++ fmtProgress (CInt.ofInt 1000) (CInt.ofInt 1000)]) := by
  constructor
  · rintro ⟨w', text, h1, h2, h3⟩
    rw [ForwardProjectionBilinear_run instA 0 7 8 9 world0 (by decide)] at h1
    cases h1
    have ht : text = header := by
      have : (header : List Char) = [] ++ text := h2
      simpa using this.symm
    rw [ht] at h3
    revert h3
    decide
  · rintro ⟨w', text, h1, h2, h3⟩
    rw [ForwardProjectionBilinear_run instA 1000 7 8 9 world1000 (by decide)] at h1
    cases h1
    have hn : world1000.config.detZEltCount.val.toNat = 1000 := by decide
    have ht : text = header ++ progressText (CInt.ofInt 1000) 0 1000 := by
      have : header ++ progressText (CInt.ofInt 1000) 0
          world1000.config.detZEltCount.val.toNat = [] ++ text := h2
      rw [hn] at this
      simpa using this.symm
    rw [ht] at h3
    revert h3
    decide!

/-- C2 (amended): for a configured `detZEltCount = n` with `1 ≤ n ≤ 999`, the text
written to standard output by `ForwardProjectionBilinear`, shown on a terminal where a
backspace moves the cursor one column left and later characters overwrite, is an empty
line (before the leading newline) and exactly one progress line, whose final state is
`"Processing slice# "` followed by `n/n` in the format `"%3d/%3d"`, with nothing left
over from earlier slices. -/
theorem C2_progress_line_final_state (self : lightSource) (fuel : Nat)
    (image sgm : DevPtr) (stream : cudaStream_t) (w : World)
    (h1 : 1 ≤ w.config.detZEltCount.val) (h2 : w.config.detZEltCount.val ≤ 999)
    (hf : w.config.detZEltCount.val.toNat ≤ fuel) :
    ∃ w' text, self.ForwardProjectionBilinear fuel image sgm stream w = some w' ∧
      w'.stdout = w.stdout ++ text ∧
      render text = [[], progressLabel ++
        fmtProgress w.config.detZEltCount w.config.detZEltCount] := by
  refine ⟨_, header ++ progressText w.config.detZEltCount 0 w.config.detZEltCount.val.toNat,
    ForwardProjectionBilinear_run self fuel image sgm stream w hf, ?_,
    render_progress w.config.detZEltCount h1 h2⟩
  simp [afterSlices, printf]

theorem C2_progress_line_final_state_witness :
    (1 ≤ world3.config.detZEltCount.val ∧ world3.config.detZEltCount.val ≤ 999 ∧
      world3.config.detZEltCount.val.toNat ≤ 3) ∧
    ∃ w' text, instA.ForwardProjectionBilinear 3 7 8 9 world3 = some w' ∧
      w'.stdout = world3.stdout ++ text ∧
      render text = [[], progressLabel ++
        fmtProgress world3.config.detZEltCount world3.config.detZEltCount] :=
  ⟨⟨by decide, by decide, by decide⟩,
   C2_progress_line_final_state instA 3 7 8 9 world3 (by decide) (by decide) (by decide)⟩

end RayCast
